import Mathlib

/-!
Shallow embedding of the analytics core of the Cluster-Customer repository
(the `AnalyticsDashboard` component): field classification, feature
extraction, z-score normalization, the k-means invocation guard, segment
naming, per-record output assembly, and monthly trend bucketing.

Modelling conventions:
* JS numbers are modelled as `ℚ`; `NaN` is modelled explicitly by `JsNum.nan`.
  Non-finite floats ("Infinity" literals, overflow) and hexadecimal numeric
  strings are outside the modelled value universe, which covers ordinary
  decimal literals — the domain of CSV customer data.
* `parseFloat` skips leading whitespace and takes the longest decimal-literal
  prefix; since a decimal literal contains no whitespace, trimming both ends
  first and then scanning a prefix is equivalent and is how we model it.
* JS objects are modelled as insertion-ordered association lists; object
  spread `{...a, k: v}` overwrites an existing key in place and appends new
  keys, which `upsertOut` reproduces.
* The k-means library (`ml-kmeans`) is external to the repository; its result
  is a parameter (`cr : Option (List ℕ)`, the per-row cluster assignment),
  constrained in theorems only by the validity facts its contract guarantees.
-/

namespace ClusterCustomer

/-- A raw cell value of a row: a number, a string, or JS `undefined`
(missing key). -/
inductive Value where
  | num (q : ℚ)
  | str (s : String)
  | undefined
deriving DecidableEq

/-- Result of a JS numeric conversion: a finite number or `NaN`. -/
inductive JsNum where
  | nan
  | fin (q : ℚ)
deriving DecidableEq

/-- Model of `isFinite` on a modelled JS number. -/
def JsNum.isFiniteNum : JsNum → Bool
  | .nan => false
  | .fin _ => true

/-- The whitespace characters recognized by the model. -/
def isWsChar (c : Char) : Bool := c = ' ' || c = '\t' || c = '\n' || c = '\r'

/-- Trim whitespace from both ends of a character list. -/
def wsTrim (cs : List Char) : List Char :=
  ((cs.dropWhile isWsChar).reverse.dropWhile isWsChar).reverse

/-- Numeric value of a digit string (most significant first). -/
def digitsToNat (ds : List Char) : ℕ :=
  ds.foldl (fun a c => a * 10 + (c.toNat - '0'.toNat)) 0

/-- Consume an optional leading sign, returning the sign as `±1`. -/
def scanSign : List Char → ℚ × List Char
  | '+' :: r => (1, r)
  | '-' :: r => (-1, r)
  | cs => (1, cs)

/-- Split off the leading run of decimal digits. -/
def scanDigits (cs : List Char) : List Char × List Char :=
  (cs.takeWhile Char.isDigit, cs.dropWhile Char.isDigit)

/-- Scan a decimal literal (sign, integer digits, optional fraction, optional
exponent) at the head of `cs`; return its value and the unconsumed suffix, or
`none` if no digits are present.  Models the JS `StrDecimalLiteral` grammar
restricted to finite decimal forms. -/
def scanDecimal (cs : List Char) : Option (ℚ × List Char) :=
  let p1 := scanSign cs
  let p2 := scanDigits p1.2
  let p3 : List Char × List Char :=
    match p2.2 with
    | '.' :: r => scanDigits r
    | _ => ([], p2.2)
  if p2.1 = [] ∧ p3.1 = [] then none
  else
    let mant : ℚ := (digitsToNat p2.1 : ℚ) + (digitsToNat p3.1 : ℚ) / (10 : ℚ) ^ p3.1.length
    let p4 : ℤ × List Char :=
      match p3.2 with
      | c :: r =>
        if c = 'e' ∨ c = 'E' then
          let q1 := scanSign r
          let q2 := scanDigits q1.2
          if q2.1 = [] then (0, p3.2)
          else (if q1.1 = 1 then (digitsToNat q2.1 : ℤ) else -(digitsToNat q2.1 : ℤ), q2.2)
        else (0, p3.2)
      | [] => (0, p3.2)
    some (p1.1 * mant * (10 : ℚ) ^ p4.1, p4.2)

/-- Model of JS `parseFloat`: skip leading whitespace, take the longest
decimal-literal prefix (trailing junk ignored), `NaN` if none. -/
def jsParseFloat : Value → JsNum
  | .num q => .fin q
  | .undefined => .nan
  | .str s =>
    match scanDecimal (wsTrim s.data) with
    | some p => .fin p.1
    | none => .nan

/-- Model of JS `Number(...)` coercion (as used by `isFinite(val)`): trim,
empty string coerces to `0`, otherwise the whole string must be one decimal
literal. -/
def jsToNumber : Value → JsNum
  | .num q => .fin q
  | .undefined => .nan
  | .str s =>
    let t := wsTrim s.data
    if t = [] then .fin 0
    else
      match scanDecimal t with
      | some p => if p.2 = [] then .fin p.1 else .nan
      | none => .nan

/-- Modelled from the spec: a value "parses to a finite floating-point number"
by a locale-free whole-value decimal parse, with non-numeric strings (and
empty / whitespace-only strings) treated as failures.  This is the spec's
classification predicate for claim C3, to be compared with the code's. -/
def specDecimalParse : Value → Option ℚ
  | .num q => some q
  | .undefined => none
  | .str s =>
    let t := wsTrim s.data
    if t = [] then none
    else
      match scanDecimal t with
      | some p => if p.2 = [] then some p.1 else none
      | none => none

/-! ## Rows, datasets and field classification -/

/-- A row: a JS object from the parsed CSV, modelled as an insertion-ordered
association list (column name to raw value). -/
abbrev Row := List (String × Value)

/-- Lookup `row[field]`: the value at a key, JS `undefined` when missing. -/
def rowGet (r : Row) (f : String) : Value :=
  match r.find? (fun p => p.1 == f) with
  | some p => p.2
  | none => .undefined

/-- Lowercase a string character-wise (model of `String.toLowerCase` for the
ASCII column names considered). -/
def strLower (s : String) : String := ⟨s.data.map Char.toLower⟩

/-- Does `needle` occur at the head of `hay`? -/
def leadMatch : List Char → List Char → Bool
  | [], _ => true
  | _ :: _, [] => false
  | n :: ns, h :: hs => n == h && leadMatch ns hs

/-- Does `needle` occur anywhere inside `hay`?  Model of `String.includes`. -/
def containsSub (needle : List Char) : List Char → Bool
  | [] => needle.isEmpty
  | c :: rest => leadMatch needle (c :: rest) || containsSub needle rest

/-- Test `f.toLowerCase().includes(sub)` for each candidate substring. -/
def nameHasAny (subs : List String) (f : String) : Bool :=
  subs.any (fun sub => containsSub sub.data (strLower f).data)

/-- The column names `Object.keys(data[0])`, from the first row. -/
def fieldsOf (data : List Row) : List String := (data.headD []).map Prod.fst

/-- Columns whose lowercased name contains amount/revenue/value/total. -/
def amountFields (data : List Row) : List String :=
  (fieldsOf data).filter (nameHasAny ["amount", "revenue", "value", "total"])

/-- Columns whose lowercased name contains date/time/created. -/
def dateFields (data : List Row) : List String :=
  (fieldsOf data).filter (nameHasAny ["date", "time", "created"])

/-- The code's per-value numeric test on the sampled rows:
`!isNaN(parseFloat(val)) && isFinite(val)`. -/
def numericValueTest (v : Value) : Bool :=
  (jsParseFloat v != JsNum.nan) && (jsToNumber v).isFiniteNum

/-- Columns where, among the first 100 rows, some value passes
`numericValueTest` (source lines 108-111). -/
def numericFields (data : List Row) : List String :=
  (fieldsOf data).filter (fun f =>
    ((data.take 100).map (fun r => rowGet r f)).any numericValueTest)

/-! ## Feature extraction, normalization and the clustering call -/

/-- Value of `parseFloat(...)` with `NaN` replaced by `0` (source lines 116-118; also
the effect of `parseFloat(...) || 0`, since `NaN` and `0` are both falsy). -/
def parsedOrZero (v : Value) : ℚ :=
  match jsParseFloat v with
  | .fin q => q
  | .nan => 0

/-- The raw feature matrix: one row of parsed numeric-field values per input
row, parse failures defaulting to 0. -/
def clusteringData (data : List Row) : List (List ℚ) :=
  data.map (fun r => (numericFields data).map (fun f => parsedOrZero (rowGet r f)))

/-- The column-sum accumulation loop of `normalizeData`. -/
def colSum (m : List (List ℚ)) (j : ℕ) : ℚ :=
  m.foldl (fun a row => a + row.getD j 0) 0

/-- The per-column means of `normalizeData`. -/
def meansOf (m : List (List ℚ)) : List ℚ :=
  (List.range (m.headD []).length).map (fun j => colSum m j / (m.length : ℚ))

/-- The per-column standard deviations of `normalizeData`, with the
`if (stds[j] === 0) stds[j] = 1` replacement.  `sqrtFn` abstracts
`Math.sqrt` (any function with `sqrtFn 0 = 0` on the relevant inputs). -/
def stdsOf (sqrtFn : ℚ → ℚ) (m : List (List ℚ)) : List ℚ :=
  (List.range (m.headD []).length).map (fun j =>
    let s := sqrtFn ((m.foldl (fun a row => a + (row.getD j 0 - (meansOf m).getD j 0) ^ 2) 0) / (m.length : ℚ))
    if s = 0 then 1 else s)

/-- Model of `normalizeData` (source lines 21-53): z-score per column, early return
for an empty matrix or zero-width rows. -/
def normalizeData (sqrtFn : ℚ → ℚ) (m : List (List ℚ)) : List (List ℚ) :=
  if m = [] ∨ (m.headD []).length = 0 then m
  else
    m.map (fun row => row.enum.map (fun p => (p.2 - (meansOf m).getD p.1 0) / (stdsOf sqrtFn m).getD p.1 0))

/-- The `normalizedData` matrix (source line 122). -/
def normalizedDataOf (sqrtFn : ℚ → ℚ) (data : List Row) : List (List ℚ) :=
  if 0 < (clusteringData data).length then normalizeData sqrtFn (clusteringData data) else []

/-- The cluster count `k = Math.min(5, data.length)` (source line 125). -/
def kOf (data : List Row) : ℕ := min 5 data.length

/-- The guard of line 126: the k-means library is invoked exactly when
`normalizedData.length > 0`. -/
def kmeansInvoked (sqrtFn : ℚ → ℚ) (data : List Row) : Bool :=
  decide (0 < (normalizedDataOf sqrtFn data).length)

/-! ## Segment naming (source lines 129-181)

`cr` stands for `clusterResults`: `none` when clustering was skipped, else
the library's per-row cluster assignment (`clusterResults.clusters`). -/

/-- Per-cluster statistics entry (`clusterStats` element). -/
structure ClusterStat where
  clusterId : ℕ
  avgValues : List ℚ
  size : ℕ
deriving DecidableEq

/-- The member points `clusteringData.filter((_, idx) => clusters[idx] === clusterId)`. -/
def clusterPoints (cd : List (List ℚ)) (asg : List ℕ) (cid : ℕ) : List (List ℚ) :=
  ((cd.zip asg).filter (fun p => p.2 == cid)).map Prod.fst

/-- The statistics of one cluster, `none` when it has no members
(source lines 135-145). -/
def statFor (data : List Row) (asg : List ℕ) (cid : ℕ) : Option ClusterStat :=
  let pts := clusterPoints (clusteringData data) asg cid
  if pts = [] then none
  else
    some ⟨cid,
      (numericFields data).enum.map (fun p =>
        (pts.foldl (fun acc pt => acc + pt.getD p.1 0) 0) / (pts.length : ℚ)),
      pts.length⟩

/-- The `clusterStats` list after `.filter(Boolean)`. -/
def clusterStats (data : List Row) (asg : List ℕ) : List ClusterStat :=
  (List.range (kOf data)).filterMap (statFor data asg)

/-- Index `numericFields.findIndex(f => amountFields.includes(f))`, as an option
instead of `-1` (source lines 148-150). -/
def primaryValueFieldIdx (data : List Row) : Option ℕ :=
  (numericFields data).findIdx? (fun f => (amountFields data).contains f)

/-- Mean of feature `p` over all rows (source line 160). -/
def overallAvgAt (data : List Row) (p : ℕ) : ℚ :=
  ((clusteringData data).foldl (fun acc pt => acc + pt.getD p 0) 0) / ((clusteringData data).length : ℚ)

/-- The naming decision for one cluster statistic (source lines 153-178). -/
def nameStat (data : List Row) (stat : ClusterStat) : String :=
  let relativeSize : ℚ := (stat.size : ℚ) / (data.length : ℚ)
  match primaryValueFieldIdx data with
  | some p =>
    let avgValue := stat.avgValues.getD p 0
    let overallAvg := overallAvgAt data p
    if avgValue > overallAvg * 1.5 then
      if relativeSize > 0.15 then "High Value" else "Premium"
    else if avgValue > overallAvg * 0.8 then
      if relativeSize > 0.25 then "Core Customers" else "Regular"
    else if avgValue > overallAvg * 0.3 then "Potential Growth"
    else if relativeSize > 0.2 then "Entry Level"
    else "At Risk"
  | none =>
    if relativeSize > 0.3 then "Majority Segment"
    else if relativeSize > 0.2 then "Significant Group"
    else if relativeSize > 0.1 then "Niche Segment"
    else "Emerging Group"

/-- The generic fallback name `Segment ${i + 1}`. -/
def genericName (i : ℕ) : String := "Segment " ++ toString (i + 1)

/-- Model of `generateSegmentNames` (source lines 129-179): generic names when
`!clusterResults || numericFields.length === 0`, else one name per non-empty
cluster. -/
def generateSegmentNames (data : List Row) (cr : Option (List ℕ)) : List String :=
  match cr with
  | none => (List.range (kOf data)).map genericName
  | some asg =>
    if numericFields data = [] then (List.range (kOf data)).map genericName
    else (clusterStats data asg).map (nameStat data)

/-! ## Per-record output (source lines 183-202) -/

/-- A value of the output record: an original cell, a derived number, a
derived string, or the derived features object. -/
inductive OutVal where
  | ov (v : Value)
  | onum (q : ℚ)
  | ostr (s : String)
  | ofeat (l : List (String × ℚ))
deriving DecidableEq

/-- A produced customer record: a JS object, insertion-ordered. -/
abbrev CustomerRecord := List (String × OutVal)

/-- JS object-literal key update: overwrite in place if the key exists,
append otherwise. -/
def upsertOut (k : String) (v : OutVal) : CustomerRecord → CustomerRecord
  | [] => [(k, v)]
  | p :: rest => if p.1 = k then (p.1, v) :: rest else p :: upsertOut k v rest

/-- Spread `{...customer, ...overrides}`: fold the literal's properties over the
spread object. -/
def jsSpreadMerge (base : CustomerRecord) (overrides : List (String × OutVal)) : CustomerRecord :=
  overrides.foldl (fun acc p => upsertOut p.1 p.2 acc) base

/-- Property lookup on an output record. -/
def recGet (r : CustomerRecord) (k : String) : Option OutVal :=
  (r.find? (fun p => p.1 == k)).map Prod.snd

/-- Key lookup on an input row (present keys only). -/
def rowFind (r : Row) (k : String) : Option Value :=
  (r.find? (fun p => p.1 == k)).map Prod.snd

/-- Selection `segmentNames[clusterId] || fallback` — the only falsy
string is the empty string. -/
def segmentAt (names : List String) (cid : ℕ) : String :=
  match names.get? cid with
  | some nm => if nm = "" then genericName cid else nm
  | none => genericName cid

/-- The id `clusterResults ? clusterResults.clusters[index] : 0` (source line 184). -/
def clusterIdAt (cr : Option (List ℕ)) (idx : ℕ) : ℕ :=
  match cr with
  | some cl => cl.getD idx 0
  | none => 0

/-- Build one output record from row `idx` (source lines 183-202). -/
def buildRecord (data : List Row) (cr : Option (List ℕ)) (idx : ℕ) (customer : Row) : CustomerRecord :=
  let cid : ℕ := clusterIdAt cr idx
  let segment := segmentAt (generateSegmentNames data cr) cid
  let amount : ℚ :=
    if amountFields data = [] then 0
    else parsedOrZero (rowGet customer ((amountFields data).headD ""))
  let feats : List (String × ℚ) :=
    (numericFields data).map (fun f => (f, parsedOrZero (rowGet customer f)))
  jsSpreadMerge (customer.map (fun p => (p.1, OutVal.ov p.2)))
    [("id", .onum ((idx : ℚ) + 1)),
     ("cluster", .onum (cid : ℚ)),
     ("segment", .ostr segment),
     ("monetary", .onum amount),
     ("features", .ofeat feats)]

/-- The output list `customerSegments = data.map((customer, index) => ...)`. -/
def customerSegments (data : List Row) (cr : Option (List ℕ)) : List CustomerRecord :=
  data.enum.map (fun p => buildRecord data cr p.1 p.2)

/-! ## Monthly trend (source lines 217-258)

Date parsing models `new Date(str)` on ISO `YYYY-MM-DD[...]` strings,
timezone-free: other textual formats, epoch-number inputs and per-month day
validation (for example February 30) are outside the model; any value the
model fails to parse is an invalid date in JS as well for the string forms
considered. -/

/-- Parse `YYYY-MM-DD[...]` into (full year, month 1-12); `none` models an
invalid date. -/
def jsParseDateYM : Value → Option (ℕ × ℕ)
  | .str s =>
    let cs := s.data
    let ys := cs.takeWhile Char.isDigit
    let r1 := cs.dropWhile Char.isDigit
    match r1 with
    | '-' :: r2 =>
      let ms := r2.takeWhile Char.isDigit
      let r3 := r2.dropWhile Char.isDigit
      match r3 with
      | '-' :: r4 =>
        let ds := r4.takeWhile Char.isDigit
        let r5 := r4.dropWhile Char.isDigit
        if ys.length = 4 ∧ (ms.length = 1 ∨ ms.length = 2) ∧ (ds.length = 1 ∨ ds.length = 2)
            ∧ 1 ≤ digitsToNat ms ∧ digitsToNat ms ≤ 12
            ∧ 1 ≤ digitsToNat ds ∧ digitsToNat ds ≤ 31
            ∧ (r5 = [] ∨ r5.headD ' ' = 'T') then
          some (digitsToNat ys, digitsToNat ms)
        else none
      | _ => none
    | _ => none
  | _ => none

/-- Two-digit zero padding, `String(x).padStart(2, '0')` for months. -/
def pad2 (n : ℕ) : String := if n < 10 then "0" ++ toString n else toString n

/-- The bucket key `${getFullYear()}-${String(getMonth() + 1).padStart(2, '0')}`. -/
def monthKeyOf (y m : ℕ) : String := toString y ++ "-" ++ pad2 m

/-- One accumulating bucket `{count, revenue}`. -/
structure MonthAgg where
  count : ℕ
  revenue : ℚ
deriving DecidableEq

/-- Add one row to the bucket map (insertion-ordered object keys). -/
def bucketUpsert (key : String) (amt : ℚ) : List (String × MonthAgg) → List (String × MonthAgg)
  | [] => [(key, ⟨1, amt⟩)]
  | p :: rest =>
    if p.1 = key then (p.1, ⟨p.2.count + 1, p.2.revenue + amt⟩) :: rest
    else p :: bucketUpsert key amt rest

/-- The monetary contribution of a row to its bucket (source line 230). -/
def rowAmount (af : List String) (r : Row) : ℚ :=
  if af = [] then 0 else parsedOrZero (rowGet r (af.headD ""))

/-- One step of the bucket reduction: skip a row whose date fails to parse,
otherwise add it to its year-month bucket (source lines 221-232). -/
def monthStep (df : String) (af : List String) (acc : List (String × MonthAgg)) (r : Row) :
    List (String × MonthAgg) :=
  match jsParseDateYM (rowGet r df) with
  | some ym => bucketUpsert (monthKeyOf ym.1 ym.2) (rowAmount af r) acc
  | none => acc

/-- Model of `monthGroups`: reduce the rows into buckets keyed by year-month
(source lines 221-233).  `df` is the first temporal field, `af` the monetary
fields (captured from the outer scope in the source). -/
def monthGroups (df : String) (af : List String) (rows : List Row) : List (String × MonthAgg) :=
  rows.foldl (monthStep df af) []

/-- Bucket order: ascending by key; `localeCompare` on these ASCII keys is
code-point order, i.e. lexicographic order on the character lists. -/
def bucketLe (a b : String × MonthAgg) : Prop := a.1.data ≤ b.1.data

instance : DecidableRel bucketLe := fun a b => inferInstanceAs (Decidable (a.1.data ≤ b.1.data))

instance : IsTotal (String × MonthAgg) bucketLe := ⟨fun a b => le_total a.1.data b.1.data⟩

instance : IsTrans (String × MonthAgg) bucketLe := ⟨fun _ _ _ h1 h2 => le_trans h1 h2⟩

/-- Sorting `Object.entries(monthGroups).sort(([a], [b]) => a.localeCompare(b))`. -/
def sortedGroups (df : String) (af : List String) (rows : List Row) : List (String × MonthAgg) :=
  (monthGroups df af rows).insertionSort bucketLe

/-- Window `.slice(-12)`: the last 12 entries (all of them when fewer). -/
def retainedGroups (df : String) (af : List String) (rows : List Row) : List (String × MonthAgg) :=
  (sortedGroups df af rows).drop ((sortedGroups df af rows).length - 12)

/-- Model of `Math.round`: rounding half upward, the floor of q + 1/2. -/
def jsRound (q : ℚ) : ℤ := ⌊q + 1 / 2⌋

/-- Short month names used by `toLocaleDateString('en', { month: 'short' })`. -/
def monthShort (m : ℕ) : String :=
  ["Jan", "Feb", "Mar", "Apr", "May", "Jun", "Jul", "Aug", "Sep", "Oct", "Nov", "Dec"].getD (m - 1) ""

/-- Split a `YYYY-MM` key back into year and month
(`monthKey.split('-')` + `parseInt`). -/
def splitKey (key : String) : ℕ × ℕ :=
  (digitsToNat (key.data.takeWhile Char.isDigit),
   digitsToNat ((key.data.dropWhile Char.isDigit).drop 1))

/-- One output trend entry. -/
structure MonthEntry where
  month : String
  customers : ℤ
  revenue : ℤ
deriving DecidableEq

/-- Display label `Mon YY` for a bucket key. -/
def displayEntry (p : String × MonthAgg) : MonthEntry :=
  let ym := splitKey p.1
  ⟨monthShort ym.2 ++ " " ++ pad2 (ym.1 % 100), (p.2.count : ℤ), jsRound p.2.revenue⟩

/-- The `totalRevenue` sum (source lines 83-88). -/
def totalRevenue (data : List Row) : ℚ :=
  if amountFields data = [] then 0
  else data.foldl (fun s r => s + parsedOrZero (rowGet r ((amountFields data).headD ""))) 0

/-- Model of `monthlyData` (source lines 217-258).  The `dateFields = []` branch is the
display-filler fallback; `jitter i` abstracts `0.8 + Math.random() * 0.4`. -/
def monthlyData (jitter : ℕ → ℚ) (data : List Row) : List MonthEntry :=
  if dateFields data ≠ [] then
    (retainedGroups ((dateFields data).headD "") (amountFields data) data).map displayEntry
  else
    let itemsPerMonth : ℤ := ⌈(data.length : ℚ) / 12⌉
    (List.range 12).map (fun i =>
      ⟨monthShort (i + 1),
       min itemsPerMonth ((data.length : ℤ) - (i : ℤ) * itemsPerMonth),
       jsRound ((totalRevenue data / 12) * jitter i)⟩)

/-! ## The `insights` memo (source lines 60-281) -/

/-- The analysis output fields the claims speak about. -/
structure Insights where
  totalCustomers : ℕ
  numericFieldsOut : List String
  kOut : ℕ
  segments : List CustomerRecord
  trend : List MonthEntry
deriving DecidableEq

/-- Model of `insights` with its guard on absent or empty data
(source lines 60-61): `none` models both an absent (`null`/`undefined`) and
an empty dataset; `asg` stands for the external k-means result. -/
def insights (sqrtFn : ℚ → ℚ) (asg : List ℕ) (jitter : ℕ → ℚ) :
    Option (List Row) → Option Insights
  | none => none
  | some data =>
    if data.length = 0 then none
    else
      let cr : Option (List ℕ) := if kmeansInvoked sqrtFn data then some asg else none
      some ⟨data.length, numericFields data, kOf data,
            customerSegments data cr, monthlyData jitter data⟩

/-! ## Spec-side definitions, for refinement comparisons -/

/-- Modelled from the spec: the ratio/relative-size decision tree of claim
C1, with `ratio` = cluster average on the primary monetary feature divided by
the overall average of that feature. -/
def specRatioName (ratio relativeSize : ℚ) : String :=
  if ratio > 1.5 then
    if relativeSize > 0.15 then "High Value" else "Premium"
  else if ratio > 0.8 then
    if relativeSize > 0.25 then "Core Customers" else "Regular"
  else if ratio > 0.3 then "Potential Growth"
  else if relativeSize > 0.2 then "Entry Level"
  else "At Risk"

/-- Modelled from the spec: the mean μⱼ of column `j` over all vectors. -/
def specMean (m : List (List ℚ)) (j : ℕ) : ℚ :=
  ((m.map (fun r => r.getD j 0)).sum) / (m.length : ℚ)

/-- Modelled from the spec: the population variance of column `j` (the square
of the population standard deviation σⱼ). -/
def specPopVar (m : List (List ℚ)) (j : ℕ) : ℚ :=
  ((m.map (fun r => (r.getD j 0 - specMean m j) ^ 2)).sum) / (m.length : ℚ)

/-- Modelled from the spec: σⱼ (via the abstract square root), replaced by 1
when it equals 0. -/
def specSigma (sqrtFn : ℚ → ℚ) (m : List (List ℚ)) (j : ℕ) : ℚ :=
  if sqrtFn (specPopVar m j) = 0 then 1 else sqrtFn (specPopVar m j)

/-! ## Concrete datasets used by witnesses and counterexamples -/

/-- Two rows with positive monetary values. -/
def dPos : List Row := [[("amount", .num 10)], [("amount", .num 20)]]

/-- Two rows with monetary values of opposite sign (overall average zero). -/
def dZeroAvg : List Row := [[("amount", .num 10)], [("amount", .num (-10))]]

/-- Two rows with the same negative monetary value. -/
def dNeg : List Row := [[("amount", .num (-10))], [("amount", .num (-10))]]

/-- One row with a single non-numeric, non-monetary column. -/
def dText : List Row := [[("name", .str "abc")]]

/-- One row whose only column collides with the derived key `segment`. -/
def dCollide : List Row := [[("segment", .str "orig")]]

/-- Two rows with one numeric but non-monetary column. -/
def dTwoNum : List Row := [[("age", .num 30)], [("age", .num 40)]]

/-- Fifteen rows spanning fifteen distinct months (2023-01 .. 2024-03). -/
def d15 : List Row :=
  [[("purchase_date", .str "2023-01-15"), ("amount", .num 100)],
   [("purchase_date", .str "2023-02-15"), ("amount", .num 100)],
   [("purchase_date", .str "2023-03-15"), ("amount", .num 100)],
   [("purchase_date", .str "2023-04-15"), ("amount", .num 100)],
   [("purchase_date", .str "2023-05-15"), ("amount", .num 100)],
   [("purchase_date", .str "2023-06-15"), ("amount", .num 100)],
   [("purchase_date", .str "2023-07-15"), ("amount", .num 100)],
   [("purchase_date", .str "2023-08-15"), ("amount", .num 100)],
   [("purchase_date", .str "2023-09-15"), ("amount", .num 100)],
   [("purchase_date", .str "2023-10-15"), ("amount", .num 100)],
   [("purchase_date", .str "2023-11-15"), ("amount", .num 100)],
   [("purchase_date", .str "2023-12-15"), ("amount", .num 100)],
   [("purchase_date", .str "2024-01-15"), ("amount", .num 100)],
   [("purchase_date", .str "2024-02-15"), ("amount", .num 100)],
   [("purchase_date", .str "2024-03-15"), ("amount", .num 100)]]

/-! ## Helper lemmas -/

theorem foldl_add_eq_sum {α : Type} (f : α → ℚ) (l : List α) (c : ℚ) :
    l.foldl (fun a x => a + f x) c = c + (l.map f).sum := by
  induction l generalizing c with
  | nil => simp
  | cons x xs ih => simp [ih, add_assoc]

theorem filterMap_allSome {α β : Type} (f : α → Option β) (g : α → β) :
    ∀ l : List α, (∀ a ∈ l, f a = some (g a)) → l.filterMap f = l.map g := by
  intro l
  induction l with
  | nil => intro _; rfl
  | cons x xs ih =>
    intro h
    rw [List.filterMap_cons, h x (List.mem_cons_self x xs), List.map_cons,
      ih (fun a ha => h a (List.mem_cons_of_mem x ha))]

theorem recGet_upsertOut (k k' : String) (v : OutVal) (r : CustomerRecord) :
    recGet (upsertOut k v r) k' = if k' = k then some v else recGet r k' := by
  induction r with
  | nil =>
    by_cases h : k' = k
    · subst h
      simp [upsertOut, recGet, List.find?]
    · have hb : (k == k') = false := beq_eq_false_iff_ne.mpr (Ne.symm h)
      simp [upsertOut, recGet, List.find?, hb, h]
  | cons p rest ih =>
    by_cases hk : p.1 = k
    · by_cases h : k' = k
      · have hb : (p.1 == k') = true := beq_iff_eq.mpr (hk.trans h.symm)
        simp [upsertOut, recGet, List.find?, hk, hb, h]
      · have hb : (p.1 == k') = false :=
          beq_eq_false_iff_ne.mpr (fun he => h (he ▸ hk))
        have hb2 : (k == k') = false := by rw [← hk]; exact hb
        simp [upsertOut, recGet, List.find?, hk, hb, hb2, h]
    · by_cases hpk : p.1 = k'
      · have hkk : ¬ k' = k := fun he => hk (hpk.trans he)
        have hb : (p.1 == k') = true := beq_iff_eq.mpr hpk
        simp [upsertOut, recGet, List.find?, hk, hb, hkk]
      · have hb : (p.1 == k') = false := beq_eq_false_iff_ne.mpr hpk
        simp only [recGet] at ih
        simp only [upsertOut, if_neg hk, recGet, List.find?, hb]
        exact ih

theorem recGet_map_ov (r : Row) (k : String) :
    recGet (r.map (fun p => (p.1, OutVal.ov p.2))) k = (rowFind r k).map OutVal.ov := by
  induction r with
  | nil => rfl
  | cons p rest ih =>
    by_cases h : p.1 = k
    · have hb : (p.1 == k) = true := beq_iff_eq.mpr h
      simp [recGet, rowFind, List.find?, hb]
    · have hb : (p.1 == k) = false := beq_eq_false_iff_ne.mpr h
      simp only [recGet, rowFind] at ih
      simp only [List.map_cons, recGet, rowFind, List.find?, hb]
      exact ih

/-- C9 helper: `genericName i` is never the empty string. -/
theorem genericName_ne_empty (i : ℕ) : genericName i ≠ "" := by
  intro h
  have : (genericName i).data = [] := by rw [h]
  simp [genericName, String.data_append] at this

/-! ## C9: k bound -/

/-- C9: for every non-empty dataset the number of clusters satisfies
`1 ≤ k ≤ 5` and equals `min 5 datasetSize`. -/
theorem kOf_bounds (data : List Row) (h : data ≠ []) :
    1 ≤ kOf data ∧ kOf data ≤ 5 ∧ kOf data = min 5 data.length := by
  refine ⟨?_, min_le_left _ _, rfl⟩
  have hl : 0 < data.length := List.length_pos.mpr h
  unfold kOf
  omega

/-- Witness for C9 at a concrete two-row dataset. -/
theorem kOf_bounds_witness :
    dPos ≠ [] ∧ (1 ≤ kOf dPos ∧ kOf dPos ≤ 5 ∧ kOf dPos = min 5 dPos.length) :=
  ⟨by decide, kOf_bounds dPos (by decide)⟩

/-! ## C10: empty or absent input -/

/-- C10: for an absent (`null`) or empty input dataset the analysis returns
`null` and produces no output. -/
theorem insights_empty_input (sqrtFn : ℚ → ℚ) (asg : List ℕ) (jitter : ℕ → ℚ) :
    insights sqrtFn asg jitter none = none ∧ insights sqrtFn asg jitter (some []) = none :=
  ⟨rfl, rfl⟩

/-! ## C1: segment naming by ratio thresholds -/

theorem numericFields_ne_nil_of_primary {data : List Row} {p : ℕ}
    (hp : primaryValueFieldIdx data = some p) : numericFields data ≠ [] := by
  intro h
  rw [primaryValueFieldIdx, h] at hp
  simp [List.findIdx?] at hp

theorem dNeg_stats : clusterStats dNeg [0, 0] = [⟨0, [-10], 2⟩] := by
  have hcp0 : clusterPoints (clusteringData dNeg) [0, 0] 0 = [[-10], [-10]] := by decide
  have hcp1 : clusterPoints (clusteringData dNeg) [0, 0] 1 = [] := by decide
  have hnf : numericFields dNeg = ["amount"] := by decide
  have h0 : statFor dNeg [0, 0] 0 = some ⟨0, [-10], 2⟩ := by
    have hne2 : ([[-10], [-10]] : List (List ℚ)) ≠ [] := by simp
    simp only [statFor, hcp0, if_neg hne2]
    norm_num [hnf, List.enum, List.enumFrom, List.foldl]
  have h1 : statFor dNeg [0, 0] 1 = none := by
    simp only [statFor, hcp1]
    simp
  show List.filterMap _ (List.range (kOf dNeg)) = _
  have hk : kOf dNeg = 2 := by decide
  rw [hk]
  show List.filterMap _ [0, 1] = _
  rw [List.filterMap_cons, List.filterMap_cons, h0, h1]
  rfl

theorem dNeg_avg : overallAvgAt dNeg 0 = -10 := by
  have hcd : clusteringData dNeg = [[-10], [-10]] := by decide
  rw [overallAvgAt, hcd]
  norm_num [List.foldl]

/-- C1 counterexample: on a dataset whose monetary column is constantly −10
(overall average −10), the single cluster has ratio 1 and relative size 1, so
the claim's decision tree names it "Core Customers"; the code names it
"High Value" (it compares against `overallAvg * 1.5`, which flips for a
negative overall average). -/
theorem segmentNamer_ratio_counterexample :
    primaryValueFieldIdx dNeg = some 0 ∧
    overallAvgAt dNeg 0 = -10 ∧
    generateSegmentNames dNeg (some [0, 0]) = ["High Value"] ∧
    (clusterStats dNeg [0, 0]).map (fun stat =>
      specRatioName (stat.avgValues.getD 0 0 / overallAvgAt dNeg 0)
        ((stat.size : ℚ) / (dNeg.length : ℚ))) = ["Core Customers"] := by
  have hp : primaryValueFieldIdx dNeg = some 0 := by decide
  refine ⟨hp, dNeg_avg, ?_, ?_⟩
  · simp only [generateSegmentNames]
    rw [if_neg (by decide : ¬ numericFields dNeg = []), dNeg_stats]
    simp only [List.map_cons, List.map_nil]
    simp only [nameStat, hp, dNeg_avg]
    norm_num [dNeg]
  · rw [dNeg_stats]
    simp only [List.map_cons, List.map_nil]
    rw [dNeg_avg]
    norm_num [specRatioName, dNeg]

/-- C1 (amended): provided the overall average of the primary monetary
feature is positive, the segment namer realizes exactly the spec's
ratio/relative-size decision tree on every non-empty cluster. -/
theorem segmentNamer_ratio_thresholds (data : List Row) (asg : List ℕ) (p : ℕ)
    (hp : primaryValueFieldIdx data = some p)
    (hpos : 0 < overallAvgAt data p) :
    generateSegmentNames data (some asg) = (clusterStats data asg).map (fun stat =>
      specRatioName (stat.avgValues.getD p 0 / overallAvgAt data p)
        ((stat.size : ℚ) / (data.length : ℚ))) := by
  have hne : numericFields data ≠ [] := numericFields_ne_nil_of_primary hp
  simp only [generateSegmentNames]
  rw [if_neg hne]
  apply List.map_congr_left
  intro stat _
  have e1 : (overallAvgAt data p * 1.5 < stat.avgValues.getD p 0) ↔
      ((1.5 : ℚ) < stat.avgValues.getD p 0 / overallAvgAt data p) := by
    rw [lt_div_iff₀ hpos, mul_comm]
  have e2 : (overallAvgAt data p * 0.8 < stat.avgValues.getD p 0) ↔
      ((0.8 : ℚ) < stat.avgValues.getD p 0 / overallAvgAt data p) := by
    rw [lt_div_iff₀ hpos, mul_comm]
  have e3 : (overallAvgAt data p * 0.3 < stat.avgValues.getD p 0) ↔
      ((0.3 : ℚ) < stat.avgValues.getD p 0 / overallAvgAt data p) := by
    rw [lt_div_iff₀ hpos, mul_comm]
  unfold nameStat specRatioName
  rw [hp]
  simp only [gt_iff_lt, e1, e2, e3]

theorem dPos_avg : overallAvgAt dPos 0 = 15 := by
  have hcd : clusteringData dPos = [[10], [20]] := by decide
  rw [overallAvgAt, hcd]
  norm_num [List.foldl]

/-- Witness for the amended C1 at a concrete positive-valued dataset. -/
theorem segmentNamer_ratio_thresholds_witness :
    primaryValueFieldIdx dPos = some 0 ∧ 0 < overallAvgAt dPos 0 ∧
    generateSegmentNames dPos (some [0, 1]) = (clusterStats dPos [0, 1]).map (fun stat =>
      specRatioName (stat.avgValues.getD 0 0 / overallAvgAt dPos 0)
        ((stat.size : ℚ) / (dPos.length : ℚ))) :=
  ⟨by decide, by rw [dPos_avg]; norm_num,
   segmentNamer_ratio_thresholds dPos [0, 1] 0 (by decide) (by rw [dPos_avg]; norm_num)⟩

/-! ## C2: zero overall average -/

theorem dZeroAvg_avg : overallAvgAt dZeroAvg 0 = 0 := by
  have hcd : clusteringData dZeroAvg = [[10], [-10]] := by decide
  rw [overallAvgAt, hcd]
  norm_num [List.foldl]

theorem dZeroAvg_stats : clusterStats dZeroAvg [0, 1] = [⟨0, [10], 1⟩, ⟨1, [-10], 1⟩] := by
  have hcp0 : clusterPoints (clusteringData dZeroAvg) [0, 1] 0 = [[10]] := by decide
  have hcp1 : clusterPoints (clusteringData dZeroAvg) [0, 1] 1 = [[-10]] := by decide
  have hnf : numericFields dZeroAvg = ["amount"] := by decide
  have h0 : statFor dZeroAvg [0, 1] 0 = some ⟨0, [10], 1⟩ := by
    have hne2 : ([[10]] : List (List ℚ)) ≠ [] := by simp
    simp only [statFor, hcp0, if_neg hne2]
    norm_num [hnf, List.enum, List.enumFrom, List.foldl]
  have h1 : statFor dZeroAvg [0, 1] 1 = some ⟨1, [-10], 1⟩ := by
    have hne2 : ([[-10]] : List (List ℚ)) ≠ [] := by simp
    simp only [statFor, hcp1, if_neg hne2]
    norm_num [hnf, List.enum, List.enumFrom, List.foldl]
  show List.filterMap _ (List.range (kOf dZeroAvg)) = _
  have hk : kOf dZeroAvg = 2 := by decide
  rw [hk]
  show List.filterMap _ [0, 1] = _
  rw [List.filterMap_cons, List.filterMap_cons, h0, h1]
  rfl

/-- C2 counterexample: with monetary values 10 and −10 the overall average is
0, yet the cluster holding the value 10 is named "High Value" — not the
claimed lowest band ("Entry Level"/"At Risk"). -/
theorem segmentNamer_zero_avg_counterexample :
    primaryValueFieldIdx dZeroAvg = some 0 ∧
    overallAvgAt dZeroAvg 0 = 0 ∧
    generateSegmentNames dZeroAvg (some [0, 1]) = ["High Value", "Entry Level"] ∧
    ("High Value" : String) ≠ "Entry Level" ∧ ("High Value" : String) ≠ "At Risk" := by
  have hp : primaryValueFieldIdx dZeroAvg = some 0 := by decide
  refine ⟨hp, dZeroAvg_avg, ?_, by decide, by decide⟩
  simp only [generateSegmentNames]
  rw [if_neg (by decide : ¬ numericFields dZeroAvg = []), dZeroAvg_stats]
  simp only [List.map_cons, List.map_nil]
  simp only [nameStat, hp, dZeroAvg_avg]
  norm_num [dZeroAvg]

/-- C2 (amended): when the overall average of the primary monetary feature is
zero, the code performs no division by it (it multiplies the zero average by
the thresholds); every cluster whose average is positive is named
"High Value"/"Premium" by relative size, and every cluster whose average is
non-positive (in particular every cluster when all monetary values are zero)
falls to the lowest band "Entry Level"/"At Risk" by relative size. -/
theorem segmentNamer_zero_overall_avg (data : List Row) (asg : List ℕ) (p : ℕ)
    (hp : primaryValueFieldIdx data = some p)
    (hz : overallAvgAt data p = 0) :
    generateSegmentNames data (some asg) = (clusterStats data asg).map (fun stat =>
      if 0 < stat.avgValues.getD p 0 then
        if (stat.size : ℚ) / (data.length : ℚ) > 0.15 then "High Value" else "Premium"
      else
        if (stat.size : ℚ) / (data.length : ℚ) > 0.2 then "Entry Level"
        else "At Risk") := by
  have hne : numericFields data ≠ [] := numericFields_ne_nil_of_primary hp
  simp only [generateSegmentNames]
  rw [if_neg hne]
  apply List.map_congr_left
  intro stat _
  unfold nameStat
  rw [hp]
  simp only [hz, zero_mul, gt_iff_lt]
  split_ifs <;> rfl

/-- Witness for the amended C2 at a concrete zero-average dataset. -/
theorem segmentNamer_zero_overall_avg_witness :
    primaryValueFieldIdx dZeroAvg = some 0 ∧ overallAvgAt dZeroAvg 0 = 0 ∧
    generateSegmentNames dZeroAvg (some [0, 1]) = (clusterStats dZeroAvg [0, 1]).map (fun stat =>
      if 0 < stat.avgValues.getD 0 0 then
        if (stat.size : ℚ) / (dZeroAvg.length : ℚ) > 0.15 then "High Value" else "Premium"
      else
        if (stat.size : ℚ) / (dZeroAvg.length : ℚ) > 0.2 then "Entry Level"
        else "At Risk") :=
  ⟨by decide, dZeroAvg_avg,
   segmentNamer_zero_overall_avg dZeroAvg [0, 1] 0 (by decide) dZeroAvg_avg⟩

/-! ## C4: behavior with zero numeric fields -/

theorem normalizeData_length (sqrtFn : ℚ → ℚ) (m : List (List ℚ)) :
    (normalizeData sqrtFn m).length = m.length := by
  unfold normalizeData
  split_ifs
  · rfl
  · simp

/-- C4 counterexample: a one-row dataset with a single non-numeric column has
zero numeric fields, yet the guard `normalizedData.length > 0` holds (one
zero-width vector per row), so the k-means library IS invoked — the claim
says the clustering step is skipped entirely. -/
theorem clustering_skip_counterexample :
    numericFields dText = [] ∧ dText ≠ [] ∧ kmeansInvoked (fun _ => 0) dText = true := by
  refine ⟨by decide, by decide, by decide⟩

/-- C4 (amended): for every non-empty dataset the clustering branch is taken
(`clusterResults` is non-null) — even with zero numeric fields, since
`normalizedData` then holds one zero-width vector per row; clustering is
skipped only for an empty dataset.  When there are no numeric fields the
segment names are the generic `Segment 1..k` (not the size-based heuristic),
and this holds whatever the library returned. -/
theorem clustering_invoked_nonempty (sqrtFn : ℚ → ℚ) (data : List Row)
    (cr : Option (List ℕ)) (h : data ≠ []) :
    kmeansInvoked sqrtFn data = true ∧
    (numericFields data = [] →
      generateSegmentNames data cr = (List.range (kOf data)).map genericName) := by
  constructor
  · have hl : 0 < data.length := List.length_pos.mpr h
    have hcl : (clusteringData data).length = data.length := by simp [clusteringData]
    have hnn : (normalizedDataOf sqrtFn data).length = data.length := by
      unfold normalizedDataOf
      rw [if_pos (by rw [hcl]; exact hl), normalizeData_length, hcl]
    simp only [kmeansInvoked, hnn, decide_eq_true_eq]
    exact hl
  · intro hn
    cases cr with
    | none => rfl
    | some asg => simp only [generateSegmentNames, if_pos hn]

/-- Witness for the amended C4 at a concrete one-row dataset. -/
theorem clustering_invoked_nonempty_witness :
    dText ≠ [] ∧
    (kmeansInvoked (fun _ => 0) dText = true ∧
      (numericFields dText = [] →
        generateSegmentNames dText (some [0]) = (List.range (kOf dText)).map genericName)) :=
  ⟨by decide, clustering_invoked_nonempty (fun _ => 0) dText (some [0]) (by decide)⟩

/-! ## C5: size-based fallback names -/

theorem primary_none_of_no_amount {data : List Row} (h : amountFields data = []) :
    primaryValueFieldIdx data = none := by
  unfold primaryValueFieldIdx
  rw [h]
  induction numericFields data with
  | nil => rfl
  | cons x xs ih => simp [List.findIdx?_cons, ih]

theorem get?_zip_mem {α β : Type} :
    ∀ (l : List α) (l' : List β) (i : ℕ) (a : α) (b : β),
      l.get? i = some a → l'.get? i = some b → (a, b) ∈ l.zip l'
  | x :: xs, y :: ys, 0, a, b, ha, hb => by
    simp only [List.get?] at ha hb
    cases ha
    cases hb
    exact List.mem_cons_self _ _
  | x :: xs, y :: ys, i + 1, a, b, ha, hb => by
    simp only [List.get?] at ha hb
    exact List.mem_cons_of_mem _ (get?_zip_mem xs ys i a b ha hb)
  | [], _, i, a, b, ha, hb => by cases ha
  | x :: xs, [], i, a, b, ha, hb => by cases hb

theorem statFor_isSome_of_mem {data : List Row} {asg : List ℕ} {cid : ℕ}
    (hlen : asg.length = data.length)
    (hex : ∃ i, asg.get? i = some cid) :
    ∃ st, statFor data asg cid = some st := by
  obtain ⟨i, hi⟩ := hex
  have hi_lt : i < asg.length := by
    by_contra hge
    rw [List.get?_eq_none.mpr (le_of_not_lt hge)] at hi
    cases hi
  have hcd_len : (clusteringData data).length = data.length := by simp [clusteringData]
  have hcd_lt : i < (clusteringData data).length := by
    rw [hcd_len, ← hlen]
    exact hi_lt
  have hpt : (clusteringData data).get? i =
      some ((clusteringData data).get ⟨i, hcd_lt⟩) := List.get?_eq_get hcd_lt
  have hmem : ((clusteringData data).get ⟨i, hcd_lt⟩, cid) ∈ (clusteringData data).zip asg :=
    get?_zip_mem _ _ i _ _ hpt hi
  have hpts : (clusteringData data).get ⟨i, hcd_lt⟩ ∈
      clusterPoints (clusteringData data) asg cid := by
    unfold clusterPoints
    exact List.mem_map_of_mem _ (List.mem_filter.mpr ⟨hmem, by simp⟩)
  have hne : clusterPoints (clusteringData data) asg cid ≠ [] :=
    List.ne_nil_of_mem hpts
  refine ⟨(statFor data asg cid).getD ⟨0, [], 0⟩, ?_⟩
  simp only [statFor, if_neg hne]
  rfl

theorem clusterStats_full {data : List Row} {asg : List ℕ}
    (hlen : asg.length = data.length)
    (hfull : ∀ c < kOf data, ∃ i, asg.get? i = some c) :
    clusterStats data asg =
      (List.range (kOf data)).map (fun cid => (statFor data asg cid).getD ⟨0, [], 0⟩) := by
  apply filterMap_allSome
  intro cid hcid
  obtain ⟨st, hst⟩ := statFor_isSome_of_mem hlen (hfull cid (List.mem_range.mp hcid))
  rw [hst]
  rfl

theorem nameStat_mem_sizeBased {data : List Row}
    (hp : primaryValueFieldIdx data = none) (stat : ClusterStat) :
    nameStat data stat ∈
      ["Majority Segment", "Significant Group", "Niche Segment", "Emerging Group"] := by
  simp only [nameStat, hp]
  split_ifs <;> simp

theorem segmentAt_of_get? {names : List String} {cid : ℕ} {nm : String}
    (h : names.get? cid = some nm) (hne : nm ≠ "") : segmentAt names cid = nm := by
  simp only [segmentAt, h, if_neg hne]

theorem customerSegments_get? (data : List Row) (cr : Option (List ℕ)) (i : ℕ) :
    (customerSegments data cr).get? i = (data.get? i).map (buildRecord data cr i) := by
  unfold customerSegments
  rw [List.get?_map, List.get?_enum]
  cases data.get? i <;> rfl

theorem recGet_buildRecord_segment (data : List Row) (cr : Option (List ℕ))
    (idx : ℕ) (customer : Row) :
    recGet (buildRecord data cr idx customer) "segment" =
      some (.ostr (segmentAt (generateSegmentNames data cr) (clusterIdAt cr idx))) := by
  simp only [buildRecord, jsSpreadMerge, List.foldl_cons, List.foldl_nil]
  rw [recGet_upsertOut, if_neg (by decide), recGet_upsertOut, if_neg (by decide),
    recGet_upsertOut, if_pos rfl]

/-- C5 counterexample: a one-row dataset with a single non-numeric,
non-monetary column gets the generic name "Segment 1", which is not in the
size-based set. -/
theorem sizeBased_names_counterexample :
    amountFields dText = [] ∧
    recGet ((customerSegments dText (some [0])).getD 0 []) "segment" =
      some (.ostr "Segment 1") ∧
    ("Segment 1" : String) ∉
      (["Majority Segment", "Significant Group", "Niche Segment", "Emerging Group"] : List String) := by
  refine ⟨by decide, by decide, by decide⟩

/-- C5 (amended): for a non-empty dataset with no monetary column but at
least one numeric field, and a cluster assignment of the right length in
which every cluster id below k is non-empty, every row's segment name is one
of the four size-based names. -/
theorem sizeBased_names_only (data : List Row) (asg : List ℕ)
    (ham : amountFields data = []) (hnum : numericFields data ≠ [])
    (hlen : asg.length = data.length)
    (hval : ∀ c ∈ asg, c < kOf data)
    (hfull : ∀ c < kOf data, ∃ i, asg.get? i = some c) :
    ∀ i < data.length, ∃ s,
      recGet ((customerSegments data (some asg)).getD i []) "segment" = some (.ostr s) ∧
      s ∈ ["Majority Segment", "Significant Group", "Niche Segment", "Emerging Group"] := by
  intro i hi
  have hrow : data.get? i = some (data.get ⟨i, hi⟩) := List.get?_eq_get hi
  have hrec : (customerSegments data (some asg)).get? i =
      some (buildRecord data (some asg) i (data.get ⟨i, hi⟩)) := by
    rw [customerSegments_get?, hrow]
    rfl
  have hgetD : (customerSegments data (some asg)).getD i [] =
      buildRecord data (some asg) i (data.get ⟨i, hi⟩) := by
    rw [List.getD_eq_getElem?_getD, ← List.get?_eq_getElem?, hrec]
    rfl
  rw [hgetD, recGet_buildRecord_segment]
  have hcid_lt : clusterIdAt (some asg) i < kOf data := by
    have hi' : i < asg.length := by rw [hlen]; exact hi
    have hmem : asg.getD i 0 ∈ asg := by
      rw [List.getD_eq_getElem?_getD, ← List.get?_eq_getElem?, List.get?_eq_get hi']
      exact List.get_mem asg i hi'
    exact hval _ hmem
  have hp : primaryValueFieldIdx data = none := primary_none_of_no_amount ham
  have hnames : generateSegmentNames data (some asg) =
      (List.range (kOf data)).map
        (fun c => nameStat data ((statFor data asg c).getD ⟨0, [], 0⟩)) := by
    simp only [generateSegmentNames, if_neg hnum]
    rw [clusterStats_full hlen hfull, List.map_map]
    rfl
  have hget : (generateSegmentNames data (some asg)).get? (clusterIdAt (some asg) i) =
      some (nameStat data ((statFor data asg (clusterIdAt (some asg) i)).getD ⟨0, [], 0⟩)) := by
    rw [hnames, List.get?_map, List.get?_range hcid_lt]
    rfl
  have hmem4 := nameStat_mem_sizeBased hp
    ((statFor data asg (clusterIdAt (some asg) i)).getD ⟨0, [], 0⟩)
  have hne : nameStat data ((statFor data asg (clusterIdAt (some asg) i)).getD ⟨0, [], 0⟩) ≠ "" := by
    have h4 := hmem4
    simp only [List.mem_cons, List.not_mem_nil, or_false] at h4
    rcases h4 with h | h | h | h <;> rw [h] <;> decide
  refine ⟨_, ?_, hmem4⟩
  rw [segmentAt_of_get? hget hne]

/-- Witness for the amended C5: a two-row dataset with one numeric,
non-monetary column and both clusters non-empty. -/
theorem sizeBased_names_only_witness :
    amountFields dTwoNum = [] ∧ numericFields dTwoNum ≠ [] ∧
    (∀ i < dTwoNum.length, ∃ s,
      recGet ((customerSegments dTwoNum (some [0, 1])).getD i []) "segment" = some (.ostr s) ∧
      s ∈ ["Majority Segment", "Significant Group", "Niche Segment", "Emerging Group"]) :=
  ⟨by decide, by decide,
    sizeBased_names_only dTwoNum [0, 1] (by decide) (by decide) (by decide)
      (by decide)
      (by
        intro c hc
        have h2 : kOf dTwoNum = 2 := by decide
        rw [h2] at hc
        rcases c with _ | _ | n
        · exact ⟨0, rfl⟩
        · exact ⟨1, rfl⟩
        · omega)⟩

/-! ## C3: numeric-field classification -/

theorem scanDecimal_nil : scanDecimal ([] : List Char) = none := rfl

/-- The code's per-value test `!isNaN(parseFloat(val)) && isFinite(val)`
holds exactly when the spec's whole-value decimal parse succeeds: the
`isFinite` conjunct rules out values with trailing junk (`"12abc"`), and the
`parseFloat` conjunct rules out empty/whitespace strings, which `Number(...)`
coerces to 0 but the spec treats as failures. -/
theorem numericValueTest_iff_spec (v : Value) :
    numericValueTest v = true ↔ (specDecimalParse v).isSome = true := by
  cases v with
  | num q =>
    simp [numericValueTest, jsParseFloat, jsToNumber, specDecimalParse, JsNum.isFiniteNum]
  | undefined =>
    simp [numericValueTest, jsParseFloat, jsToNumber, specDecimalParse, JsNum.isFiniteNum]
  | str s =>
    by_cases ht : wsTrim s.data = []
    · simp [numericValueTest, jsParseFloat, jsToNumber, specDecimalParse, ht, scanDecimal_nil,
        JsNum.isFiniteNum]
    · cases hsd : scanDecimal (wsTrim s.data) with
      | none =>
        simp [numericValueTest, jsParseFloat, jsToNumber, specDecimalParse, ht, hsd,
          JsNum.isFiniteNum]
      | some p =>
        by_cases hr : p.2 = []
        · simp [numericValueTest, jsParseFloat, jsToNumber, specDecimalParse, ht, hsd, hr,
            JsNum.isFiniteNum]
        · simp [numericValueTest, jsParseFloat, jsToNumber, specDecimalParse, ht, hsd, hr,
            JsNum.isFiniteNum]

/-- C3: a column is classified into `numericFields` iff, among the first
min(100, datasetSize) rows, at least one of its values parses to a finite
number under the spec's whole-value decimal parse. -/
theorem numericFields_spec (data : List Row) (h : data ≠ []) (f : String) :
    f ∈ numericFields data ↔
      (f ∈ fieldsOf data ∧
        ∃ r ∈ data.take 100, (specDecimalParse (rowGet r f)).isSome = true) := by
  unfold numericFields
  rw [List.mem_filter]
  apply and_congr_right
  intro _
  rw [List.any_eq_true]
  constructor
  · rintro ⟨v, hv, htest⟩
    obtain ⟨r, hr, rfl⟩ := List.mem_map.mp hv
    exact ⟨r, hr, (numericValueTest_iff_spec _).mp htest⟩
  · rintro ⟨r, hr, hs⟩
    exact ⟨rowGet r f, List.mem_map_of_mem _ hr, (numericValueTest_iff_spec _).mpr hs⟩

/-- Witness for C3 at a concrete dataset and column. -/
theorem numericFields_spec_witness :
    dPos ≠ [] ∧
    ("amount" ∈ numericFields dPos ↔
      ("amount" ∈ fieldsOf dPos ∧
        ∃ r ∈ dPos.take 100, (specDecimalParse (rowGet r "amount")).isSome = true)) :=
  ⟨by decide, numericFields_spec dPos (by decide) "amount"⟩

/-! ## C7: per-record output frame -/

theorem segmentAt_ne_empty (names : List String) (cid : ℕ) : segmentAt names cid ≠ "" := by
  cases h : names.get? cid with
  | none =>
    simp only [segmentAt, h]
    exact genericName_ne_empty cid
  | some nm =>
    simp only [segmentAt, h]
    split_ifs with he
    · exact genericName_ne_empty cid
    · exact he

/-- Lookup of a non-derived key on a built record: the original cell. -/
theorem recGet_buildRecord_other (data : List Row) (cr : Option (List ℕ)) (idx : ℕ)
    (customer : Row) (k : String)
    (h : k ∉ (["id", "cluster", "segment", "monetary", "features"] : List String)) :
    recGet (buildRecord data cr idx customer) k = (rowFind customer k).map OutVal.ov := by
  simp only [List.mem_cons, List.not_mem_nil, or_false, not_or] at h
  obtain ⟨h1, h2, h3, h4, h5⟩ := h
  simp only [buildRecord, jsSpreadMerge, List.foldl_cons, List.foldl_nil]
  rw [recGet_upsertOut, if_neg h5, recGet_upsertOut, if_neg h4, recGet_upsertOut, if_neg h3,
    recGet_upsertOut, if_neg h2, recGet_upsertOut, if_neg h1, recGet_map_ov]

/-- Lookup of the five derived keys on a built record. -/
theorem recGet_buildRecord_derived (data : List Row) (cr : Option (List ℕ)) (idx : ℕ)
    (customer : Row) :
    recGet (buildRecord data cr idx customer) "id" = some (.onum ((idx : ℚ) + 1)) ∧
    recGet (buildRecord data cr idx customer) "cluster" =
      some (.onum ((clusterIdAt cr idx : ℕ) : ℚ)) ∧
    recGet (buildRecord data cr idx customer) "monetary" =
      some (.onum (if amountFields data = [] then 0
        else parsedOrZero (rowGet customer ((amountFields data).headD "")))) ∧
    recGet (buildRecord data cr idx customer) "features" =
      some (.ofeat ((numericFields data).map (fun f => (f, parsedOrZero (rowGet customer f))))) := by
  refine ⟨?_, ?_, ?_, ?_⟩ <;>
    simp only [buildRecord, jsSpreadMerge, List.foldl_cons, List.foldl_nil] <;>
    rw [recGet_upsertOut] <;>
    first
      | rw [if_pos rfl]
      | (rw [if_neg (by decide), recGet_upsertOut]
         first
           | rw [if_pos rfl]
           | (rw [if_neg (by decide), recGet_upsertOut]
              first
                | rw [if_pos rfl]
                | (rw [if_neg (by decide), recGet_upsertOut]
                   first
                     | rw [if_pos rfl]
                     | (rw [if_neg (by decide), recGet_upsertOut, if_pos rfl]))))

/-- C7 counterexample: an input row that already has a column `segment`
("orig") gets that column overwritten by the derived segment name — the
original field does not survive unchanged. -/
theorem customerSegments_frame_counterexample :
    rowFind (dCollide.headD []) "segment" = some (Value.str "orig") ∧
    recGet ((customerSegments dCollide (some [0])).getD 0 []) "segment" =
      some (.ostr "Segment 1") ∧
    some (OutVal.ostr "Segment 1") ≠ some (OutVal.ov (Value.str "orig")) := by
  refine ⟨by decide, by decide, by decide⟩

/-- C7 (amended): exactly one record per input row, in input order; every
original field whose name is not one of the five derived keys
(id/cluster/segment/monetary/features) is carried over unchanged; the five
derived keys hold the derived values (overwriting an original column of the
same name if present); the segment is always a defined, non-empty string. -/
theorem customerSegments_frame (data : List Row) (cr : Option (List ℕ)) :
    (customerSegments data cr).length = data.length ∧
    ∀ i, i < data.length →
      (customerSegments data cr).get? i = some (buildRecord data cr i (data.getD i [])) ∧
      (∀ k, k ∉ (["id", "cluster", "segment", "monetary", "features"] : List String) →
        recGet (buildRecord data cr i (data.getD i [])) k =
          (rowFind (data.getD i []) k).map OutVal.ov) ∧
      recGet (buildRecord data cr i (data.getD i [])) "id" = some (.onum ((i : ℚ) + 1)) ∧
      ∃ s, recGet (buildRecord data cr i (data.getD i [])) "segment" = some (.ostr s) ∧
        s ≠ "" := by
  constructor
  · simp [customerSegments]
  · intro i hi
    have hrow : data.get? i = some (data.getD i []) := by
      rw [List.getD_eq_getElem?_getD, ← List.get?_eq_getElem?, List.get?_eq_get hi]
      rfl
    refine ⟨?_, fun k hk => recGet_buildRecord_other data cr i _ k hk,
      (recGet_buildRecord_derived data cr i _).1,
      segmentAt (generateSegmentNames data cr) (clusterIdAt cr i),
      recGet_buildRecord_segment data cr i _, segmentAt_ne_empty _ _⟩
    rw [customerSegments_get?, hrow]
    rfl

/-- Witness for the amended C7 at the colliding one-row dataset (index 0). -/
theorem customerSegments_frame_witness :
    0 < dCollide.length ∧
    ((customerSegments dCollide (some [0])).get? 0 =
        some (buildRecord dCollide (some [0]) 0 (dCollide.getD 0 [])) ∧
      (∀ k, k ∉ (["id", "cluster", "segment", "monetary", "features"] : List String) →
        recGet (buildRecord dCollide (some [0]) 0 (dCollide.getD 0 [])) k =
          (rowFind (dCollide.getD 0 []) k).map OutVal.ov) ∧
      recGet (buildRecord dCollide (some [0]) 0 (dCollide.getD 0 [])) "id" =
        some (.onum ((0 : ℚ) + 1)) ∧
      ∃ s, recGet (buildRecord dCollide (some [0]) 0 (dCollide.getD 0 [])) "segment" =
        some (.ostr s) ∧ s ≠ "") :=
  ⟨by decide, (customerSegments_frame dCollide (some [0])).2 0 (by decide)⟩

/-! ## C8: normalizer correctness -/

theorem getD_map_lt {α β : Type} (l : List α) (f : α → β) (i : ℕ) (d : β) (d' : α)
    (h : i < l.length) : (l.map f).getD i d = f (l.getD i d') := by
  rw [List.getD_eq_getElem?_getD, List.getElem?_map, List.getElem?_eq_getElem h,
    List.getD_eq_getElem?_getD, List.getElem?_eq_getElem h]
  rfl

theorem getD_range_map {β : Type} (g : ℕ → β) (n i : ℕ) (d : β) (h : i < n) :
    ((List.range n).map g).getD i d = g i := by
  rw [getD_map_lt _ g i d 0 (by simpa using h), List.getD_eq_getElem?_getD,
    List.getElem?_eq_getElem (by simpa using h), List.getElem_range]
  rfl

theorem colSum_eq (m : List (List ℚ)) (j : ℕ) :
    colSum m j = (m.map (fun r => r.getD j 0)).sum := by
  unfold colSum
  rw [foldl_add_eq_sum]
  exact zero_add _

theorem meansOf_getD (m : List (List ℚ)) (j : ℕ) (hj : j < (m.headD []).length) :
    (meansOf m).getD j 0 = specMean m j := by
  unfold meansOf specMean
  rw [getD_range_map _ _ _ _ hj, colSum_eq]

theorem stdsOf_getD (sqrtFn : ℚ → ℚ) (m : List (List ℚ)) (j : ℕ)
    (hj : j < (m.headD []).length) :
    (stdsOf sqrtFn m).getD j 0 = specSigma sqrtFn m j := by
  unfold stdsOf specSigma
  rw [getD_range_map _ _ _ _ hj]
  have hsum : (m.foldl (fun a row => a + (row.getD j 0 - (meansOf m).getD j 0) ^ 2) 0) =
      ((m.map (fun r => (r.getD j 0 - specMean m j) ^ 2)).sum) := by
    rw [foldl_add_eq_sum (fun row => (row.getD j 0 - (meansOf m).getD j 0) ^ 2) m 0, zero_add,
      meansOf_getD m j hj]
  rw [hsum]
  rfl

/-- C8: for every non-empty rectangular matrix with at least one column, the
normalizer outputs `(Input[i][j] − μⱼ) / σⱼ` with μⱼ the column mean and σⱼ
the population standard deviation (abstract square root of the population
variance), replaced by 1 when zero; consequently a constant column
normalizes to all zeros. -/
theorem normalizeData_spec (sqrtFn : ℚ → ℚ) (m : List (List ℚ))
    (hm : m ≠ []) (hw : 0 < (m.headD []).length)
    (hrect : ∀ r ∈ m, r.length = (m.headD []).length) :
    (∀ i, i < m.length → ∀ j, j < (m.headD []).length →
      ((normalizeData sqrtFn m).getD i []).getD j 0 =
        ((m.getD i []).getD j 0 - specMean m j) / specSigma sqrtFn m j) ∧
    (∀ j, j < (m.headD []).length →
      (∀ r ∈ m, r.getD j 0 = (m.headD []).getD j 0) →
      ∀ i, i < m.length → ((normalizeData sqrtFn m).getD i []).getD j 0 = 0) := by
  have hguard : ¬ (m = [] ∨ (m.headD []).length = 0) := by
    rintro (h | h)
    · exact hm h
    · omega
  have hmain : ∀ i, i < m.length → ∀ j, j < (m.headD []).length →
      ((normalizeData sqrtFn m).getD i []).getD j 0 =
        ((m.getD i []).getD j 0 - specMean m j) / specSigma sqrtFn m j := by
    intro i hi j hj
    have hmem : m.getD i [] ∈ m := by
      rw [List.getD_eq_getElem?_getD, ← List.get?_eq_getElem?, List.get?_eq_get hi]
      exact List.get_mem m i hi
    have hlen : (m.getD i []).length = (m.headD []).length := hrect _ hmem
    have hjr : j < (m.getD i []).length := by rw [hlen]; exact hj
    unfold normalizeData
    rw [if_neg hguard]
    rw [getD_map_lt m _ i [] [] hi]
    rw [← meansOf_getD m j hj, ← stdsOf_getD sqrtFn m j hj]
    generalize m.getD i [] = row at hjr ⊢
    simp only [List.getD_eq_getElem?_getD, List.getElem?_map, List.getElem?_enum,
      List.getElem?_eq_getElem hjr, Option.map_some', Option.getD_some]
  refine ⟨hmain, ?_⟩
  intro j hj hconst i hi
  have hmem : m.getD i [] ∈ m := by
    rw [List.getD_eq_getElem?_getD, ← List.get?_eq_getElem?, List.get?_eq_get hi]
    exact List.get_mem m i hi
  have hmean : specMean m j = (m.headD []).getD j 0 := by
    unfold specMean
    have hmap : m.map (fun r => r.getD j 0) = List.replicate m.length ((m.headD []).getD j 0) := by
      rw [List.eq_replicate]
      constructor
      · simp
      · intro b hb
        obtain ⟨r, hr, rfl⟩ := List.mem_map.mp hb
        exact hconst r hr
    rw [hmap, List.sum_replicate, nsmul_eq_mul]
    have hm0 : (m.length : ℚ) ≠ 0 := by
      have hpos : 0 < m.length := List.length_pos.mpr hm
      exact Nat.cast_ne_zero.mpr (Nat.pos_iff_ne_zero.mp hpos)
    field_simp
  rw [hmain i hi j hj, hconst _ hmem, hmean, sub_self, zero_div]

/-- Witness for C8 at a concrete 4×1 matrix with a degenerate square root. -/
theorem normalizeData_spec_witness :
    (([[1], [5], [3], [3]] : List (List ℚ)) ≠ [] ∧
      0 < (([[1], [5], [3], [3]] : List (List ℚ)).headD []).length ∧
      (∀ r ∈ ([[1], [5], [3], [3]] : List (List ℚ)),
        r.length = (([[1], [5], [3], [3]] : List (List ℚ)).headD []).length)) ∧
    ((∀ i, i < ([[1], [5], [3], [3]] : List (List ℚ)).length →
      ∀ j, j < (([[1], [5], [3], [3]] : List (List ℚ)).headD []).length →
      ((normalizeData (fun _ => 0) [[1], [5], [3], [3]]).getD i []).getD j 0 =
        ((([[1], [5], [3], [3]] : List (List ℚ)).getD i []).getD j 0 -
            specMean [[1], [5], [3], [3]] j) /
          specSigma (fun _ => 0) [[1], [5], [3], [3]] j) ∧
    (∀ j, j < (([[1], [5], [3], [3]] : List (List ℚ)).headD []).length →
      (∀ r ∈ ([[1], [5], [3], [3]] : List (List ℚ)),
        r.getD j 0 = (([[1], [5], [3], [3]] : List (List ℚ)).headD []).getD j 0) →
      ∀ i, i < ([[1], [5], [3], [3]] : List (List ℚ)).length →
        ((normalizeData (fun _ => 0) [[1], [5], [3], [3]]).getD i []).getD j 0 = 0)) :=
  ⟨⟨by decide, by decide, by decide⟩,
    normalizeData_spec (fun _ => 0) [[1], [5], [3], [3]] (by decide) (by decide) (by decide)⟩

/-! ## C6: monthly trend window -/

theorem foldl_monthStep_filter (df : String) (af : List String) (rows : List Row) :
    ∀ acc, rows.foldl (monthStep df af) acc =
      (rows.filter (fun r => (jsParseDateYM (rowGet r df)).isSome)).foldl (monthStep df af) acc := by
  induction rows with
  | nil => intro _; rfl
  | cons r rs ih =>
    intro acc
    cases hp : jsParseDateYM (rowGet r df) with
    | some ym =>
      rw [List.filter_cons_of_pos (by simp [hp])]
      simp only [List.foldl_cons]
      exact ih _
    | none =>
      rw [List.filter_cons_of_neg (by simp [hp])]
      simp only [List.foldl_cons, monthStep, hp]
      exact ih _

/-- C6 helper: rows whose date fails to parse contribute to no bucket. -/
theorem monthGroups_eq_filter (df : String) (af : List String) (rows : List Row) :
    monthGroups df af rows =
      monthGroups df af (rows.filter (fun r => (jsParseDateYM (rowGet r df)).isSome)) :=
  foldl_monthStep_filter df af rows []

theorem bucketUpsert_count (key : String) (amt : ℚ) :
    ∀ acc, (∀ p ∈ acc, 1 ≤ p.2.count) → ∀ p ∈ bucketUpsert key amt acc, 1 ≤ p.2.count := by
  intro acc
  induction acc with
  | nil =>
    intro _ p hp
    simp only [bucketUpsert, List.mem_singleton] at hp
    subst hp
    exact le_refl 1
  | cons q rest ih =>
    intro hacc p hp
    by_cases hq : q.1 = key
    · simp only [bucketUpsert, if_pos hq] at hp
      rcases List.mem_cons.mp hp with h | h
      · subst h
        exact Nat.le_add_left 1 _
      · exact hacc p (List.mem_cons_of_mem q h)
    · simp only [bucketUpsert, if_neg hq] at hp
      rcases List.mem_cons.mp hp with h | h
      · rw [h]
        exact hacc q (List.mem_cons_self q rest)
      · exact ih (fun x hx => hacc x (List.mem_cons_of_mem q hx)) p h

theorem foldl_monthStep_count (df : String) (af : List String) (rows : List Row) :
    ∀ acc, (∀ p ∈ acc, 1 ≤ p.2.count) →
      ∀ p ∈ rows.foldl (monthStep df af) acc, 1 ≤ p.2.count := by
  induction rows with
  | nil => intro acc hacc p hp; exact hacc p hp
  | cons r rs ih =>
    intro acc hacc p hp
    rw [List.foldl_cons] at hp
    refine ih _ ?_ p hp
    cases hpr : jsParseDateYM (rowGet r df) with
    | some ym =>
      simp only [monthStep, hpr]
      exact bucketUpsert_count _ _ acc hacc
    | none =>
      simp only [monthStep, hpr]
      exact hacc

theorem monthGroups_count (df : String) (af : List String) (rows : List Row) :
    ∀ p ∈ monthGroups df af rows, 1 ≤ p.2.count :=
  foldl_monthStep_count df af rows [] (by intro p hp; cases hp)

theorem sortedGroups_sorted (df : String) (af : List String) (rows : List Row) :
    List.Sorted bucketLe (sortedGroups df af rows) :=
  List.sorted_insertionSort bucketLe (monthGroups df af rows)

theorem retainedGroups_sorted (df : String) (af : List String) (rows : List Row) :
    List.Sorted bucketLe (retainedGroups df af rows) :=
  (sortedGroups_sorted df af rows).sublist (List.drop_sublist _ _)

theorem retainedGroups_length (df : String) (af : List String) (rows : List Row) :
    (retainedGroups df af rows).length = min 12 (monthGroups df af rows).length := by
  unfold retainedGroups
  rw [List.length_drop]
  have h : (sortedGroups df af rows).length = (monthGroups df af rows).length :=
    List.length_insertionSort _ _
  omega

theorem retainedGroups_mem (df : String) (af : List String) (rows : List Row)
    {p : String × MonthAgg} (hp : p ∈ retainedGroups df af rows) :
    p ∈ monthGroups df af rows := by
  have h1 : p ∈ sortedGroups df af rows := List.mem_of_mem_drop hp
  exact (List.mem_insertionSort bucketLe).mp h1

/-- C6: for every dataset with a temporal field, the monthly trend is the
display mapping of the last 12 (largest-key) buckets of the ascending-sorted
bucket list; rows with unparseable dates are excluded from bucketing, every
bucket holds at least one row, the retained buckets are sorted ascending by
month key and dominate every discarded bucket, at most 12 are kept, and
every emitted entry reports at least one customer. -/
theorem monthlyData_spec (jitter : ℕ → ℚ) (data : List Row)
    (hdf : dateFields data ≠ []) :
    monthlyData jitter data =
      (retainedGroups ((dateFields data).headD "") (amountFields data) data).map displayEntry ∧
    monthGroups ((dateFields data).headD "") (amountFields data) data =
      monthGroups ((dateFields data).headD "") (amountFields data)
        (data.filter (fun r =>
          (jsParseDateYM (rowGet r ((dateFields data).headD ""))).isSome)) ∧
    (∀ p ∈ retainedGroups ((dateFields data).headD "") (amountFields data) data,
      1 ≤ p.2.count) ∧
    List.Sorted bucketLe (retainedGroups ((dateFields data).headD "") (amountFields data) data) ∧
    (retainedGroups ((dateFields data).headD "") (amountFields data) data).length =
      min 12 (monthGroups ((dateFields data).headD "") (amountFields data) data).length ∧
    (∀ p ∈ (sortedGroups ((dateFields data).headD "") (amountFields data) data).take
        ((sortedGroups ((dateFields data).headD "") (amountFields data) data).length - 12),
      ∀ q ∈ retainedGroups ((dateFields data).headD "") (amountFields data) data,
        bucketLe p q) ∧
    (∀ e ∈ monthlyData jitter data, 1 ≤ e.customers) := by
  have hout : monthlyData jitter data =
      (retainedGroups ((dateFields data).headD "") (amountFields data) data).map displayEntry := by
    unfold monthlyData
    rw [if_pos hdf]
  refine ⟨hout, monthGroups_eq_filter _ _ _, ?_, retainedGroups_sorted _ _ _,
    retainedGroups_length _ _ _, ?_, ?_⟩
  · intro p hp
    exact monthGroups_count _ _ _ p (retainedGroups_mem _ _ _ hp)
  · intro p hp q hq
    have hsort := sortedGroups_sorted ((dateFields data).headD "") (amountFields data) data
    have hsplit := List.take_append_drop
      ((sortedGroups ((dateFields data).headD "") (amountFields data) data).length - 12)
      (sortedGroups ((dateFields data).headD "") (amountFields data) data)
    rw [← hsplit] at hsort
    exact (List.pairwise_append.mp hsort).2.2 p hp q hq
  · intro e he
    rw [hout] at he
    obtain ⟨p, hp, rfl⟩ := List.mem_map.mp he
    have h1 : 1 ≤ p.2.count := monthGroups_count _ _ _ p (retainedGroups_mem _ _ _ hp)
    simp only [displayEntry]
    exact_mod_cast h1

/-- Witness for C6 at a 15-month dataset: 15 buckets form, exactly the 12
most recent survive, and the general theorem applies. -/
theorem monthlyData_spec_witness :
    dateFields d15 ≠ [] ∧
    (monthGroups ((dateFields d15).headD "") (amountFields d15) d15).length = 15 ∧
    (monthlyData (fun _ => 1) d15).length = 12 ∧
    (retainedGroups ((dateFields d15).headD "") (amountFields d15) d15).map Prod.fst =
      ["2023-04", "2023-05", "2023-06", "2023-07", "2023-08", "2023-09", "2023-10",
       "2023-11", "2023-12", "2024-01", "2024-02", "2024-03"] ∧
    (monthlyData (fun _ => 1) d15 =
      (retainedGroups ((dateFields d15).headD "") (amountFields d15) d15).map displayEntry ∧
    monthGroups ((dateFields d15).headD "") (amountFields d15) d15 =
      monthGroups ((dateFields d15).headD "") (amountFields d15)
        (d15.filter (fun r =>
          (jsParseDateYM (rowGet r ((dateFields d15).headD ""))).isSome)) ∧
    (∀ p ∈ retainedGroups ((dateFields d15).headD "") (amountFields d15) d15,
      1 ≤ p.2.count) ∧
    List.Sorted bucketLe (retainedGroups ((dateFields d15).headD "") (amountFields d15) d15) ∧
    (retainedGroups ((dateFields d15).headD "") (amountFields d15) d15).length =
      min 12 (monthGroups ((dateFields d15).headD "") (amountFields d15) d15).length ∧
    (∀ p ∈ (sortedGroups ((dateFields d15).headD "") (amountFields d15) d15).take
        ((sortedGroups ((dateFields d15).headD "") (amountFields d15) d15).length - 12),
      ∀ q ∈ retainedGroups ((dateFields d15).headD "") (amountFields d15) d15,
        bucketLe p q) ∧
    (∀ e ∈ monthlyData (fun _ => 1) d15, 1 ≤ e.customers)) :=
  ⟨by decide, by decide, by decide, by decide, monthlyData_spec (fun _ => 1) d15 (by decide)⟩

end ClusterCustomer
